import Mathlib

/-!
Verification of the Codenames game-server core (`src/index.js`):
session state, the state deriver (`calculateDerivedState`), the
reconnect merger (`mergeGameStates`), the reveal handler
(`REVEAL_CARD`), session creation (`createNewGameState`, `NEW_GAME`),
and presence detach (`leaveCurrentGame` / disconnect).

The embedding is shallow: JS arrays become `List`s, out-of-range array
reads (which yield the falsy `undefined` in JS) become `getD _ false`
reads, JS `Array` writes past the end (which grow the array with holes)
become padding with `false`, the JS `Map` registry becomes a function
`String → Option Game`, and the JS `Set` of players becomes an
insertion-ordered duplicate-free list.
-/

namespace Codenames

/-- Card colors as they appear in the client-supplied `colors` array:
the code compares against the strings "blue", "red", "neutral", "black". -/
inductive Color where
  | blue
  | red
  | neutral
  | black
deriving DecidableEq, Repr

/-- The `currentTeam` field only ever holds "blue" or "red". -/
inductive Team where
  | blue
  | red
deriving DecidableEq, Repr

/-- Values of the `winner` field: "assassin", "blue", "red" (or null). -/
inductive Winner where
  | blue
  | red
  | assassin
deriving DecidableEq, Repr

/-- The `remainingCards` record `{blue, red}`. -/
structure Remaining where
  blue : Nat
  red : Nat
deriving DecidableEq, Repr

/-- A session record, as stored in the `activeGames` map
(`createNewGameState`, src/index.js lines 120-140). `players` models the
JS `Set` as an insertion-ordered duplicate-free list; `lastActivity`
models the `Date.now()` timestamp as a `Nat`. -/
structure Game where
  words : List String
  colors : List Color
  revealed : List Bool
  currentTeam : Team
  remainingCards : Remaining
  gameOver : Bool
  winner : Option Winner
  lastActivity : Nat
  players : List String
deriving DecidableEq, Repr

/-- A client-carried game-state snapshot (`gameState` in `JOIN_GAME`):
a `revealed` array and an optional `currentTeam` (absent field modelled
as `none`; the JS `||` fallback fires exactly on the absent case). -/
structure Snapshot where
  revealed : List Bool
  currentTeam : Option Team
deriving DecidableEq, Repr

/-- The derived triple computed by `calculateDerivedState`. -/
structure Derived where
  remainingCards : Remaining
  gameOver : Bool
  winner : Option Winner
deriving DecidableEq, Repr

/-- The reduce in `calculateDerivedState` (src/index.js lines 102-103):
`colors.reduce((sum, c, i) => sum + (c === team && !revealed[i] ? 1 : 0), 0)`.
An out-of-range `revealed[i]` is `undefined`, i.e. falsy, hence `getD i false`. -/
def remainingCount (team : Color) (colors : List Color) (revealed : List Bool) : Nat :=
  colors.enum.foldl
    (fun sum ic => sum + (if ic.2 == team && !(revealed.getD ic.1 false) then 1 else 0)) 0

/-- The check in `calculateDerivedState` (src/index.js line 105):
`colors.some((c, i) => c === "black" && revealed[i])`. -/
def isBlackRevealed (colors : List Color) (revealed : List Bool) : Bool :=
  colors.enum.any (fun ic => ic.2 == Color.black && revealed.getD ic.1 false)

/-- The pure core of `calculateDerivedState` (src/index.js lines 99-111):
remaining counts, game-over flag and winner from `(colors, revealed)`. -/
def deriveState (colors : List Color) (revealed : List Bool) : Derived :=
  let remainingCards : Remaining :=
    { blue := remainingCount Color.blue colors revealed
      red := remainingCount Color.red colors revealed }
  let isBlack := isBlackRevealed colors revealed
  let isBlueWin := remainingCards.blue == 0
  let isRedWin := remainingCards.red == 0
  { remainingCards := remainingCards
    gameOver := isBlack || isBlueWin || isRedWin
    winner :=
      if isBlack then some Winner.assassin
      else if isBlueWin then some Winner.blue
      else if isRedWin then some Winner.red
      else none }

/-- The `Object.assign(game, {remainingCards, gameOver, winner})` at the end
of `calculateDerivedState` (src/index.js line 111). -/
def calculateDerivedState (game : Game) : Game :=
  let d := deriveState game.colors game.revealed
  { game with remainingCards := d.remainingCards, gameOver := d.gameOver, winner := d.winner }

/-- The revealed-vector merge inside `mergeGameStates` (src/index.js line 116):
`baseState.revealed.map((isRevealed, index) => isRevealed || newState.revealed[index])`.
A missing `newState.revealed[index]` is `undefined`: the stored value is then
the falsy `isRevealed || undefined`, observationally `false`, hence `getD`. -/
def mergeRevealed (base incoming : List Bool) : List Bool :=
  base.mapIdx (fun index isRevealed => isRevealed || incoming.getD index false)

/-- The non-null branch of `mergeGameStates` (src/index.js lines 114-118):
`return { ...baseState, revealed }`. (The `if (!baseState) return newState`
guard is unreachable from `JOIN_GAME`, which calls it under `if (game)`.) -/
def mergeGameStates (baseState : Game) (newState : Snapshot) : Game :=
  { baseState with revealed := mergeRevealed baseState.revealed newState.revealed }

/-- Session creation `createNewGameState(gameKey, words, colors, savedState)`
(src/index.js lines 120-140): all 25 cards unrevealed, team "blue", then an
optional saved snapshot overrides `revealed` and `currentTeam` (the JS
`savedState.currentTeam || game.currentTeam` keeps "blue" when the field is
absent), and the derived fields are computed before returning. -/
def createNewGameState (words : List String) (colors : List Color)
    (savedState : Option Snapshot) (now : Nat) : Game :=
  let game : Game :=
    { words := words
      colors := colors
      revealed := List.replicate 25 false
      currentTeam := Team.blue
      remainingCards := { blue := 0, red := 0 }
      gameOver := false
      winner := none
      lastActivity := now
      players := [] }
  let game :=
    match savedState with
    | none => game
    | some saved =>
      { game with
        revealed := saved.revealed
        currentTeam := saved.currentTeam.getD game.currentTeam }
  calculateDerivedState game

/-- JS `Set.prototype.add`: appends if absent (insertion order kept). -/
def setAdd (xs : List String) (x : String) : List String :=
  if x ∈ xs then xs else xs ++ [x]

/-- JS `Set.prototype.delete`: removes the element if present. -/
def setDelete (xs : List String) (x : String) : List String :=
  xs.erase x

/-- A truthiness read `revealed[cardIndex]` at a JS number index:
in-range gives the stored boolean, any other index gives falsy `undefined`. -/
def jsIndexGet (revealed : List Bool) (i : Int) : Bool :=
  if 0 ≤ i then revealed.getD i.toNat false else false

/-- The write `revealed[cardIndex] = true` at a JS number index: in-range
sets the entry; past the end grows the array, the new gap entries being
holes (`undefined`, observationally `false`); a negative index sets a
non-element property, leaving the array's elements unchanged. -/
def jsIndexSetTrue (revealed : List Bool) (i : Int) : List Bool :=
  if 0 ≤ i then
    if i.toNat < revealed.length then revealed.set i.toNat true
    else revealed ++ List.replicate (i.toNat - revealed.length) false ++ [true]
  else revealed

/-- The read `game.colors[cardIndex]`: `none` models `undefined`. -/
def jsColorsGet (colors : List Color) (i : Int) : Option Color :=
  if 0 ≤ i then colors[i.toNat]? else none

/-- The JS string comparison `cardColor === game.currentTeam`:
true exactly for "blue" = "blue" and "red" = "red" (`none` is `undefined`). -/
def colorMatchesTeam : Option Color → Team → Bool
  | some Color.blue, Team.blue => true
  | some Color.red, Team.red => true
  | _, _ => false

/-- The toggle `game.currentTeam === "blue" ? "red" : "blue"`. -/
def otherTeam : Team → Team
  | Team.blue => Team.red
  | Team.red => Team.blue

/-- The color the spec means by "the current team's own color". -/
def teamColor : Team → Color
  | Team.blue => Color.blue
  | Team.red => Color.red

/-- The mutation path of the `REVEAL_CARD` handler once all guards passed
(src/index.js lines 250-262): set `revealed[cardIndex] = true`, refresh
`lastActivity`, switch the team when
`cardColor !== game.currentTeam || cardColor === "neutral"`, then re-derive. -/
def applyReveal (game : Game) (cardIndex : Int) (now : Nat) : Game :=
  let g1 := { game with revealed := jsIndexSetTrue game.revealed cardIndex, lastActivity := now }
  let cardColor := jsColorsGet game.colors cardIndex
  let g2 :=
    if !(colorMatchesTeam cardColor g1.currentTeam) || cardColor == some Color.neutral then
      { g1 with currentTeam := otherTeam g1.currentTeam }
    else g1
  calculateDerivedState g2

/-- The in-memory `activeGames` JS `Map`, as a lookup function. -/
abbrev Registry := String → Option Game

/-- The `REVEAL_CARD` handler (src/index.js lines 230-273). Returns the
updated registry together with the broadcast payload: `none` means every
guard-failing branch returned early (no mutation, no `GAME_STATE` emit),
`some g` means the session was mutated to `g` and `g` was broadcast.
The guards, in source order: `currentGame !== gameKey`; the game is absent
from the registry; `game.revealed[cardIndex]` is truthy. There is no guard
on `game.gameOver` and none on the range of `cardIndex`. -/
def revealCardHandler (currentGame : Option String) (activeGames : Registry)
    (gameKey : String) (cardIndex : Int) (now : Nat) : Registry × Option Game :=
  if currentGame ≠ some gameKey then (activeGames, none)
  else
    match activeGames gameKey with
    | none => (activeGames, none)
    | some game =>
      if jsIndexGet game.revealed cardIndex then (activeGames, none)
      else
        let game := applyReveal game cardIndex now
        (fun k => if k = gameKey then some game else activeGames k, some game)

/-- The `leaveCurrentGame` closure (src/index.js lines 147-159): on a
tracked session, drop the socket from its player set and, when the set
became empty, refresh `lastActivity`; `currentGame` is cleared. Returns
the new `currentGame` and the updated registry. -/
def leaveCurrentGame (currentGame : Option String) (activeGames : Registry)
    (socketId : String) (now : Nat) : Option String × Registry :=
  match currentGame with
  | none => (none, activeGames)
  | some key =>
    match activeGames key with
    | none => (none, activeGames)
    | some game =>
      let players := setDelete game.players socketId
      let game :=
        { game with
          players := players
          lastActivity := if players.length = 0 then now else game.lastActivity }
      (none, fun k => if k = key then some game else activeGames k)

/-- The `NEW_GAME` handler (src/index.js lines 209-228): leave the current
game, build a fresh session, store it in the registry under `gameKey`
(a plain `Map.set`, with no existence check), attach the caller, broadcast.
Returns the new `currentGame`, the new registry, and the broadcast payload. -/
def newGameHandler (currentGame : Option String) (activeGames : Registry)
    (socketId : String) (gameKey : String) (words : List String) (colors : List Color)
    (now : Nat) : Option String × Registry × Game :=
  let left := leaveCurrentGame currentGame activeGames socketId now
  let game := createNewGameState words colors none now
  let game := { game with players := setAdd game.players socketId }
  (some gameKey, fun k => if k = gameKey then some game else left.2 k, game)

/-- The merge step of the `JOIN_GAME` handler on a live session
(src/index.js lines 180-185): `game.revealed = mergeGameStates(game,
gameState).revealed` followed by `calculateDerivedState(game)`. -/
def applyJoinMerge (game : Game) (gameState : Snapshot) : Game :=
  calculateDerivedState { game with revealed := (mergeGameStates game gameState).revealed }

/-- A session-mutating operation, for reasoning about operation sequences:
a `REVEAL_CARD` for the session (with its already-revealed guard, the only
handler guard that inspects the session itself) or a `JOIN_GAME` merge of
an incoming snapshot. -/
inductive Op where
  | reveal (cardIndex : Int) (now : Nat)
  | mergeOp (incoming : Snapshot)
deriving Repr

/-- Application of one operation to a session. -/
def stepOp (game : Game) : Op → Game
  | Op.reveal cardIndex now =>
    if jsIndexGet game.revealed cardIndex then game else applyReveal game cardIndex now
  | Op.mergeOp incoming => applyJoinMerge game incoming

/-- Rendering of the spec's "count of entries whose color is `blue`/`red`
and not revealed": the number of indices below 25 whose color is `team`
and whose revealed flag is unset. -/
def specRemaining (team : Color) (colors : List Color) (revealed : List Bool) : Nat :=
  (List.range 25).countP (fun i => colors.getD i Color.neutral == team && !(revealed.getD i false))

/-- Rendering of the spec's "`assassinRevealed` := any revealed entry has
color `assassin`" over the 25 board positions. -/
def specAssassinRevealed (colors : List Color) (revealed : List Bool) : Bool :=
  (List.range 25).any (fun i => colors.getD i Color.neutral == Color.black && revealed.getD i false)

/-- Agreement of a session's stored derived fields with the pure deriver
applied to its current board and revealed vector. -/
def derivedOk (game : Game) : Prop :=
  game.remainingCards = (deriveState game.colors game.revealed).remainingCards
    ∧ game.gameOver = (deriveState game.colors game.revealed).gameOver
    ∧ game.winner = (deriveState game.colors game.revealed).winner

instance (game : Game) : Decidable (derivedOk game) := by
  unfold derivedOk
  infer_instance

/-! Concrete inputs used for evaluations: a standard board and sessions on it. -/

/-- A standard 25-card board: the assassin first, then 8 blue, 8 red, 8 neutral. -/
def boardB : List Color :=
  Color.black :: (List.replicate 8 Color.blue ++ List.replicate 8 Color.red
    ++ List.replicate 8 Color.neutral)

/-- The all-unrevealed reveal vector. -/
def revealed0 : List Bool := List.replicate 25 false

/-- A live session on `boardB` with nothing revealed. -/
def gLiveExample : Game := createNewGameState [] boardB none 0

/-- A completed session on `boardB`: the assassin at index 0 is revealed,
so `gameOver` holds with `winner = assassin`, and 24 cards are unrevealed. -/
def gOverExample : Game :=
  { words := []
    colors := boardB
    revealed := true :: List.replicate 24 false
    currentTeam := Team.red
    remainingCards := { blue := 8, red := 8 }
    gameOver := true
    winner := some Winner.assassin
    lastActivity := 0
    players := ["s1"] }

/-- A session occupied by exactly one player. -/
def gSolo : Game := { gLiveExample with players := ["s1"], lastActivity := 5 }

/-- A session occupied by two players. -/
def gTwo : Game := { gLiveExample with players := ["s1", "s2"], lastActivity := 5 }

/-- The session of `gTwo` after player "s2" detached. -/
def gTwoAfter : Game := { gTwo with players := ["s1"] }

/-- A one-key registry holding the given session under key "K". -/
def regOf (g : Game) : Registry := fun k => if k = "K" then some g else none

/-- A two-key registry: the completed session under "K" and the
two-player session under "J". -/
def regKJ : Registry :=
  fun k => if k = "K" then some gOverExample else if k = "J" then some gTwo else none

/-- A concrete operation sequence: one reveal, then one merge. -/
def opsW : List Op :=
  [Op.reveal 2 7, Op.mergeOp { revealed := List.replicate 25 true, currentTeam := none }]

/-- A concrete all-true incoming snapshot. -/
def snapAllW : Snapshot := { revealed := List.replicate 25 true, currentTeam := none }

/-- A concrete all-false incoming snapshot. -/
def snapNoneW : Snapshot := { revealed := List.replicate 25 false, currentTeam := none }

/-! Helper lemmas about the list combinators used in the embedding. -/

/-- A left fold adding an indicator counts the elements satisfying the predicate. -/
lemma foldl_add_indicator {α : Type} (p : α → Bool) :
    ∀ (l : List α) (acc : Nat),
      l.foldl (fun s x => s + (if p x then 1 else 0)) acc = acc + l.countP p := by
  intro l
  induction l with
  | nil => intro acc; simp
  | cons a l ih =>
    intro acc
    rw [List.foldl_cons, ih, List.countP_cons]
    split <;> omega

/-- Enumeration is the range of indices paired with the `getD` reads at them. -/
lemma range_map_getD_eq_enum {α : Type} (l : List α) (d : α) :
    (List.range l.length).map (fun i => (i, l.getD i d)) = l.enum := by
  apply List.ext_getElem
  · simp [List.enum_length]
  · intro n h1 h2
    have hn : n < l.length := by simpa using h1
    rw [List.getElem_map, List.getElem_range, List.getElem_enum, List.getD_eq_getElem l d hn]

/-- Counting over an enumeration equals counting over indices. -/
lemma countP_enum_eq_range {α : Type} (l : List α) (d : α) (q : Nat × α → Bool) :
    l.enum.countP q = (List.range l.length).countP (fun i => q (i, l.getD i d)) := by
  rw [← range_map_getD_eq_enum l d, List.countP_map]
  rfl

/-- Mapping commutes with the boolean `any` over a list. -/
lemma any_map_comp {α β : Type} (f : α → β) (p : β → Bool) :
    ∀ l : List α, (l.map f).any p = l.any (p ∘ f) := by
  intro l
  induction l with
  | nil => rfl
  | cons a l ih => simp [List.any_cons, ih]

/-- Testing `any` over an enumeration equals testing over indices. -/
lemma any_enum_eq_range {α : Type} (l : List α) (d : α) (q : Nat × α → Bool) :
    l.enum.any q = (List.range l.length).any (fun i => q (i, l.getD i d)) := by
  rw [← range_map_getD_eq_enum l d, any_map_comp]
  rfl

/-- A `getD false` read that returns `true` is an in-range read. -/
lemma getD_true_lt (l : List Bool) (i : Nat) (h : l.getD i false = true) :
    i < l.length := by
  by_contra hlt
  rw [List.getD_eq_getElem?_getD, List.getElem?_eq_none (by omega)] at h
  simp at h

/-- A `getD false` read that returns `true` reads a stored `true`. -/
lemma getD_true_getElem? (l : List Bool) (i : Nat) (h : l.getD i false = true) :
    l[i]? = some true := by
  have hlt := getD_true_lt l i h
  rw [List.getD_eq_getElem?_getD, List.getElem?_eq_getElem hlt] at h
  rw [List.getElem?_eq_getElem hlt, Option.getD_some] at *
  simp [h]

/-- Index-aware map at an optional index. -/
lemma getElem?_mapIdx {α β : Type} (f : Nat → α → β) :
    ∀ (l : List α) (i : Nat), (l.mapIdx f)[i]? = l[i]?.map (f i) := by
  intro l
  induction l generalizing f with
  | nil => intro i; simp [List.mapIdx_nil]
  | cons a l ih =>
    intro i
    rw [List.mapIdx_cons]
    cases i with
    | zero => simp
    | succ j =>
      rw [List.getElem?_cons_succ, List.getElem?_cons_succ]
      exact ih (fun k => f (k + 1)) j

/-- The merged revealed vector, read at an optional index. -/
lemma getElem?_mergeRevealed (base incoming : List Bool) (i : Nat) :
    (mergeRevealed base incoming)[i]? = base[i]?.map (fun r => r || incoming.getD i false) := by
  unfold mergeRevealed
  rw [getElem?_mapIdx]

/-- Writing `true` at any JS index never clears a stored `true`. -/
lemma jsIndexSetTrue_preserves (revealed : List Bool) (idx : Int) (i : Nat)
    (h : revealed.getD i false = true) :
    (jsIndexSetTrue revealed idx).getD i false = true := by
  have hlt := getD_true_lt revealed i h
  have hsome := getD_true_getElem? revealed i h
  unfold jsIndexSetTrue
  split
  · split
    · rw [List.getD_eq_getElem?_getD, List.getElem?_set]
      rcases eq_or_ne idx.toNat i with he | hne
      · simp [he, hlt]
      · simp [hne, hsome]
    · rw [List.getD_eq_getElem?_getD,
        List.getElem?_append_left (by simp; omega),
        List.getElem?_append_left hlt, hsome]
      rfl
  · exact h

/-- Merging never clears a stored `true`. -/
lemma mergeRevealed_preserves (base incoming : List Bool) (i : Nat)
    (h : base.getD i false = true) :
    (mergeRevealed base incoming).getD i false = true := by
  rw [List.getD_eq_getElem?_getD, getElem?_mergeRevealed, getD_true_getElem? base i h]
  rfl

/-- Recomputing the derived fields touches no other field. -/
lemma calculateDerivedState_frame (g : Game) :
    (calculateDerivedState g).words = g.words
      ∧ (calculateDerivedState g).colors = g.colors
      ∧ (calculateDerivedState g).revealed = g.revealed
      ∧ (calculateDerivedState g).currentTeam = g.currentTeam
      ∧ (calculateDerivedState g).lastActivity = g.lastActivity
      ∧ (calculateDerivedState g).players = g.players := by
  unfold calculateDerivedState
  exact ⟨rfl, rfl, rfl, rfl, rfl, rfl⟩

/-- Recomputing the derived fields establishes agreement with the deriver. -/
lemma derivedOk_calculateDerivedState (g : Game) : derivedOk (calculateDerivedState g) := by
  unfold derivedOk calculateDerivedState
  exact ⟨rfl, rfl, rfl⟩

/-- Unfolded form of the deriver, with the local bindings resolved. -/
lemma deriveState_def (colors : List Color) (revealed : List Bool) :
    deriveState colors revealed =
      { remainingCards :=
          { blue := remainingCount Color.blue colors revealed
            red := remainingCount Color.red colors revealed }
        gameOver := isBlackRevealed colors revealed
          || (remainingCount Color.blue colors revealed == 0)
          || (remainingCount Color.red colors revealed == 0)
        winner :=
          if isBlackRevealed colors revealed then some Winner.assassin
          else if remainingCount Color.blue colors revealed == 0 then some Winner.blue
          else if remainingCount Color.red colors revealed == 0 then some Winner.red
          else none } := rfl

/-- On a 25-entry board, the source's reduce computes the spec's count. -/
lemma remainingCount_eq_spec (team : Color) (colors : List Color) (revealed : List Bool)
    (hc : colors.length = 25) :
    remainingCount team colors revealed = specRemaining team colors revealed := by
  unfold remainingCount specRemaining
  rw [foldl_add_indicator (fun ic => ic.2 == team && !(revealed.getD ic.1 false)) colors.enum 0,
    Nat.zero_add, countP_enum_eq_range colors Color.neutral, hc]

/-- On a 25-entry board, the source's `some` check computes the spec's
assassin-revealed test. -/
lemma isBlackRevealed_eq_spec (colors : List Color) (revealed : List Bool)
    (hc : colors.length = 25) :
    isBlackRevealed colors revealed = specAssassinRevealed colors revealed := by
  unfold isBlackRevealed specAssassinRevealed
  rw [any_enum_eq_range colors Color.neutral, hc]

/-- C1: for every board of 25 colored entries and every revealed vector of
25 booleans, `calculateDerivedState`'s pure core returns remaining counts
equal to the number of blue (resp. red) indices not yet revealed; the winner
follows the fixed precedence assassin-revealed, then blue exhausted, then
red exhausted, else none; `gameOver` holds exactly when a winner is present;
and in particular a revealed assassin forces winner `assassin` even when a
color is simultaneously exhausted. -/
theorem derive_spec (colors : List Color) (revealed : List Bool)
    (hc : colors.length = 25) (hr : revealed.length = 25) :
    (deriveState colors revealed).remainingCards.blue = specRemaining Color.blue colors revealed
    ∧ (deriveState colors revealed).remainingCards.red = specRemaining Color.red colors revealed
    ∧ (deriveState colors revealed).winner =
        (if specAssassinRevealed colors revealed = true then some Winner.assassin
         else if specRemaining Color.blue colors revealed = 0 then some Winner.blue
         else if specRemaining Color.red colors revealed = 0 then some Winner.red
         else none)
    ∧ ((deriveState colors revealed).gameOver = true ↔ (deriveState colors revealed).winner ≠ none)
    ∧ (specAssassinRevealed colors revealed = true →
        (deriveState colors revealed).winner = some Winner.assassin) := by
  have hb := remainingCount_eq_spec Color.blue colors revealed hc
  have hrd := remainingCount_eq_spec Color.red colors revealed hc
  have hk := isBlackRevealed_eq_spec colors revealed hc
  rw [deriveState_def]
  simp only [hb, hrd, hk]
  refine ⟨trivial, trivial, ?_, ?_, ?_⟩
  · simp only [beq_iff_eq]
  · cases hA : specAssassinRevealed colors revealed <;>
      simp [hA, beq_iff_eq] <;> split_ifs <;> tauto
  · intro hA
    simp [hA]

/-- Witness for C1 at the standard board with nothing revealed. -/
theorem derive_spec_witness :
    boardB.length = 25 ∧ revealed0.length = 25
    ∧ ((deriveState boardB revealed0).remainingCards.blue
          = specRemaining Color.blue boardB revealed0
        ∧ (deriveState boardB revealed0).remainingCards.red
          = specRemaining Color.red boardB revealed0
        ∧ (deriveState boardB revealed0).winner =
            (if specAssassinRevealed boardB revealed0 = true then some Winner.assassin
             else if specRemaining Color.blue boardB revealed0 = 0 then some Winner.blue
             else if specRemaining Color.red boardB revealed0 = 0 then some Winner.red
             else none)
        ∧ ((deriveState boardB revealed0).gameOver = true
            ↔ (deriveState boardB revealed0).winner ≠ none)
        ∧ (specAssassinRevealed boardB revealed0 = true →
            (deriveState boardB revealed0).winner = some Winner.assassin)) :=
  ⟨by decide, by decide, derive_spec boardB revealed0 (by decide) (by decide)⟩

/-- The reveal mutation updates `revealed` by the JS index write. -/
lemma applyReveal_revealed (g : Game) (i : Int) (now : Nat) :
    (applyReveal g i now).revealed = jsIndexSetTrue g.revealed i := by
  unfold applyReveal
  dsimp only
  split <;> rfl

/-- The reveal mutation computes `currentTeam` by the source's switch test. -/
lemma applyReveal_currentTeam (g : Game) (i : Int) (now : Nat) :
    (applyReveal g i now).currentTeam =
      (if !(colorMatchesTeam (jsColorsGet g.colors i) g.currentTeam)
          || (jsColorsGet g.colors i == some Color.neutral)
       then otherTeam g.currentTeam else g.currentTeam) := by
  unfold applyReveal
  dsimp only
  split <;> rfl

/-- The reveal mutation stamps `lastActivity` with the current time. -/
lemma applyReveal_lastActivity (g : Game) (i : Int) (now : Nat) :
    (applyReveal g i now).lastActivity = now := by
  unfold applyReveal
  dsimp only
  split <;> rfl

/-- The reveal mutation leaves the board and the player set alone. -/
lemma applyReveal_frame (g : Game) (i : Int) (now : Nat) :
    (applyReveal g i now).words = g.words
      ∧ (applyReveal g i now).colors = g.colors
      ∧ (applyReveal g i now).players = g.players := by
  unfold applyReveal
  dsimp only
  split <;> exact ⟨rfl, rfl, rfl⟩

/-- The `REVEAL_CARD` handler applies the reveal mutation and broadcasts it
whenever its three guards pass. -/
lemma revealCardHandler_hit (reg : Registry) (key : String) (g : Game) (i : Int) (now : Nat)
    (hreg : reg key = some g) (hnot : jsIndexGet g.revealed i = false) :
    revealCardHandler (some key) reg key i now =
      (fun k => if k = key then some (applyReveal g i now) else reg k,
        some (applyReveal g i now)) := by
  unfold revealCardHandler
  rw [if_neg (by simp)]
  rw [hreg]
  simp [hnot]

/-- C2: for a live session and an in-range, unrevealed index, the handler
broadcasts the mutated session, and the turn stays with `currentTeam`
exactly when the revealed card's color is the current team's own color;
a neutral card, the opposing team's card, or the assassin switches the turn.
The quantification over `c` and the session covers all four card colors
under both starting teams. -/
theorem reveal_turn_switch (reg : Registry) (key : String) (g : Game)
    (i : Int) (now : Nat) (c : Color)
    (hreg : reg key = some g)
    (hover : g.gameOver = false)
    (hlo : 0 ≤ i) (hhi : i < 25) (hlen : g.colors.length = 25)
    (hcard : jsColorsGet g.colors i = some c)
    (hnot : jsIndexGet g.revealed i = false) :
    (revealCardHandler (some key) reg key i now).2 = some (applyReveal g i now)
    ∧ (applyReveal g i now).currentTeam =
        (if c = teamColor g.currentTeam then g.currentTeam else otherTeam g.currentTeam) := by
  constructor
  · rw [revealCardHandler_hit reg key g i now hreg hnot]
  · rw [applyReveal_currentTeam, hcard]
    rcases hT : g.currentTeam <;> rcases c <;>
      simp [colorMatchesTeam, teamColor, otherTeam]

/-- Witness for C2: revealing blue card 1 on the fresh session while the
turn is blue keeps the turn with blue. -/
theorem reveal_turn_switch_witness :
    (regOf gLiveExample) "K" = some gLiveExample
    ∧ jsColorsGet gLiveExample.colors 1 = some Color.blue
    ∧ jsIndexGet gLiveExample.revealed 1 = false
    ∧ ((revealCardHandler (some "K") (regOf gLiveExample) "K" 1 7).2
          = some (applyReveal gLiveExample 1 7)
        ∧ (applyReveal gLiveExample 1 7).currentTeam =
            (if Color.blue = teamColor gLiveExample.currentTeam then gLiveExample.currentTeam
             else otherTeam gLiveExample.currentTeam)) :=
  ⟨by decide, by decide, by decide,
    reveal_turn_switch (regOf gLiveExample) "K" gLiveExample 1 7 Color.blue (by decide)
      (by decide) (by decide) (by decide) (by decide) (by decide) (by decide)⟩

/-- The merge step of `JOIN_GAME` replaces `revealed` by the OR-merge. -/
lemma applyJoinMerge_revealed (g : Game) (inc : Snapshot) :
    (applyJoinMerge g inc).revealed = mergeRevealed g.revealed inc.revealed := by
  unfold applyJoinMerge mergeGameStates calculateDerivedState
  rfl

/-- Computation rule of `stepOp` on a reveal. -/
lemma stepOp_reveal (g : Game) (idx : Int) (now : Nat) :
    stepOp g (Op.reveal idx now)
      = (if jsIndexGet g.revealed idx then g else applyReveal g idx now) := rfl

/-- Computation rule of `stepOp` on a merge. -/
lemma stepOp_merge (g : Game) (inc : Snapshot) :
    stepOp g (Op.mergeOp inc) = applyJoinMerge g inc := rfl

/-- One reveal or merge operation never clears a revealed bit. -/
lemma stepOp_revealed_mono (g : Game) (op : Op) (i : Nat)
    (h : g.revealed.getD i false = true) :
    (stepOp g op).revealed.getD i false = true := by
  cases op with
  | reveal idx now =>
    rw [stepOp_reveal]
    split
    · exact h
    · rw [applyReveal_revealed]
      exact jsIndexSetTrue_preserves g.revealed idx i h
  | mergeOp inc =>
    rw [stepOp_merge, applyJoinMerge_revealed]
    exact mergeRevealed_preserves g.revealed inc.revealed i h

/-- C3: across every sequence of reveal and merge operations, the revealed
vector is monotonic: a bit once `true` never becomes `false` again; and the
merge computes the new vector as the elementwise OR of the authoritative
vector with the incoming snapshot's vector, so it never clears a bit. -/
theorem revealed_monotonic :
    (∀ (g : Game) (ops : List Op) (i : Nat),
        g.revealed.getD i false = true →
        (ops.foldl stepOp g).revealed.getD i false = true)
    ∧ (∀ (base incoming : List Bool) (i : Nat), i < base.length →
        (mergeRevealed base incoming).getD i false
          = (base.getD i false || incoming.getD i false)) := by
  constructor
  · intro g ops
    induction ops generalizing g with
    | nil => intro i h; exact h
    | cons op ops ih =>
      intro i h
      exact ih (stepOp g op) i (stepOp_revealed_mono g op i h)
  · intro base incoming i hi
    rw [List.getD_eq_getElem?_getD, getElem?_mergeRevealed, List.getElem?_eq_getElem hi,
      List.getD_eq_getElem base false hi]
    rfl

/-- Witness for C3: bit 0 of the completed session survives a reveal and a
merge, and the OR-merge formula holds at index 0 there. -/
theorem revealed_monotonic_witness :
    gOverExample.revealed.getD 0 false = true
    ∧ (opsW.foldl stepOp gOverExample).revealed.getD 0 false = true
    ∧ (0 < gOverExample.revealed.length
        ∧ (mergeRevealed gOverExample.revealed snapNoneW.revealed).getD 0 false
            = (gOverExample.revealed.getD 0 false || snapNoneW.revealed.getD 0 false)) :=
  ⟨by decide, revealed_monotonic.1 gOverExample opsW 0 (by decide),
    by decide, revealed_monotonic.2 gOverExample.revealed snapNoneW.revealed 0 (by decide)⟩

/-- One reveal or merge operation keeps the derived fields in agreement
with the deriver, and the mutating branches establish the agreement anew. -/
lemma stepOp_derivedOk (g : Game) (op : Op) (h : derivedOk g) :
    derivedOk (stepOp g op) := by
  cases op with
  | reveal idx now =>
    rw [stepOp_reveal]
    split
    · exact h
    · unfold applyReveal
      exact derivedOk_calculateDerivedState _
  | mergeOp inc =>
    rw [stepOp_merge]
    unfold applyJoinMerge
    exact derivedOk_calculateDerivedState _

/-- C4: session creation, the join-time merge, and the reveal mutation each
leave the stored `remainingCards`, `gameOver` and `winner` exactly equal to
the pure deriver applied to the session's current board and revealed vector,
and any sequence of reveal and merge operations preserves that agreement. -/
theorem derived_never_drifts :
    (∀ (words : List String) (colors : List Color) (saved : Option Snapshot) (now : Nat),
        derivedOk (createNewGameState words colors saved now))
    ∧ (∀ (g : Game) (inc : Snapshot), derivedOk (applyJoinMerge g inc))
    ∧ (∀ (g : Game) (i : Int) (now : Nat), derivedOk (applyReveal g i now))
    ∧ (∀ (g : Game) (ops : List Op), derivedOk g → derivedOk (ops.foldl stepOp g)) := by
  refine ⟨?_, ?_, ?_, ?_⟩
  · intro words colors saved now
    unfold createNewGameState
    exact derivedOk_calculateDerivedState _
  · intro g inc
    unfold applyJoinMerge
    exact derivedOk_calculateDerivedState _
  · intro g i now
    unfold applyReveal
    exact derivedOk_calculateDerivedState _
  · intro g ops
    induction ops generalizing g with
    | nil => intro h; exact h
    | cons op ops ih =>
      intro h
      exact ih (stepOp g op) (stepOp_derivedOk g op h)

/-- Witness for C4: the fresh session agrees with the deriver, and still
agrees after a concrete reveal-then-merge sequence. -/
theorem derived_never_drifts_witness :
    derivedOk gLiveExample ∧ derivedOk (opsW.foldl stepOp gLiveExample) :=
  ⟨by decide, derived_never_drifts.2.2.2 gLiveExample opsW (by decide)⟩

/-- C5 evaluated at the failing input: the `REVEAL_CARD` handler has no
guard on `gameOver`, so on a completed session (assassin revealed, winner
present) a reveal of a still-hidden card mutates the revealed vector,
switches `currentTeam`, and emits a broadcast — the claimed no-op fails. -/
theorem reveal_on_completed_session_mutates :
    gOverExample.gameOver = true
    ∧ gOverExample.winner = some Winner.assassin
    ∧ (revealCardHandler (some "K") (regOf gOverExample) "K" 1 77).2
        = some (applyReveal gOverExample 1 77)
    ∧ (applyReveal gOverExample 1 77).revealed ≠ gOverExample.revealed
    ∧ (applyReveal gOverExample 1 77).currentTeam ≠ gOverExample.currentTeam := by
  decide

/-- C6 counterexample: with a session already stored under key "K",
`NEW_GAME` for "K" does not skip creation — the registry afterwards no
longer holds the existing record, which has been replaced by a fresh one. -/
theorem new_game_replaces_existing :
    (regOf gOverExample) "K" = some gOverExample
    ∧ (newGameHandler none (regOf gOverExample) "s2" "K" [] boardB 9).2.1 "K"
        ≠ some gOverExample := by
  decide

/-- The leave step touches the registry at most at the caller's
previously-attached key: every other key keeps its record. -/
lemma leaveCurrentGame_frame (cg : Option String) (reg : Registry) (socketId : String)
    (now : Nat) (k : String) (hcg : cg ≠ some k) :
    (leaveCurrentGame cg reg socketId now).2 k = reg k := by
  unfold leaveCurrentGame
  cases cg with
  | none => rfl
  | some j =>
    have hj : ¬ k = j := by
      rintro rfl
      exact hcg rfl
    dsimp only
    cases hr : reg j with
    | none => rfl
    | some g =>
      dsimp only
      rw [if_neg hj]

/-- C6 amended: `NEW_GAME` never skips creation: whatever the caller was
previously attached to, it always builds a fresh session (all cards
unrevealed, team blue, derived fields recomputed, the caller attached) and
stores it under the key, replacing whatever session record existed there.
Sessions under keys other than the new key and the caller's
previously-attached key (which the implicit leave step may update) are
untouched. -/
theorem new_game_always_replaces (cg : Option String) (reg : Registry)
    (socketId gameKey : String) (words : List String) (colors : List Color)
    (now : Nat) (existing : Game)
    (hex : reg gameKey = some existing) :
    (newGameHandler cg reg socketId gameKey words colors now).2.1 gameKey
      = some { createNewGameState words colors none now with
               players := setAdd (createNewGameState words colors none now).players socketId }
    ∧ (∀ k, k ≠ gameKey → cg ≠ some k →
        (newGameHandler cg reg socketId gameKey words colors now).2.1 k = reg k) := by
  unfold newGameHandler
  constructor
  · simp
  · intro k hk hcg
    dsimp only
    rw [if_neg hk]
    exact leaveCurrentGame_frame cg reg socketId now k hcg

/-- Witness for C6 (amended) on the two-key registry, with the caller
attached to the other session "J": the record under "K" is replaced, and
the untouched key "L" keeps its (absent) record. -/
theorem new_game_always_replaces_witness :
    regKJ "K" = some gOverExample
    ∧ (newGameHandler (some "J") regKJ "s2" "K" [] boardB 9).2.1 "K"
        = some { createNewGameState [] boardB none 9 with
                 players := setAdd (createNewGameState [] boardB none 9).players "s2" }
    ∧ (newGameHandler (some "J") regKJ "s2" "K" [] boardB 9).2.1 "L" = regKJ "L" :=
  ⟨by decide,
    (new_game_always_replaces (some "J") regKJ "s2" "K" [] boardB 9 gOverExample
      (by decide)).1,
    (new_game_always_replaces (some "J") regKJ "s2" "K" [] boardB 9 gOverExample
      (by decide)).2 "L" (by decide) (by decide)⟩

/-- C7 evaluated at the failing input: the `REVEAL_CARD` handler has no
bounds check, so `cardIndex = 25` on a live 25-card session passes the
already-revealed guard (the read is `undefined`), grows the revealed
vector to length 26, stamps `lastActivity`, switches the team (the
`undefined` color differs from `currentTeam`), and emits a broadcast —
the claimed no-op fails. -/
theorem reveal_out_of_range_mutates :
    gLiveExample.revealed.length = 25
    ∧ (revealCardHandler (some "K") (regOf gLiveExample) "K" 25 77).2
        = some (applyReveal gLiveExample 25 77)
    ∧ (applyReveal gLiveExample 25 77).revealed.length = 26
    ∧ (applyReveal gLiveExample 25 77).lastActivity ≠ gLiveExample.lastActivity
    ∧ (applyReveal gLiveExample 25 77).currentTeam ≠ gLiveExample.currentTeam := by
  decide

/-- C8: merging an incoming snapshot into a live session changes only the
revealed vector (re-deriving the derived fields from it): words, colors,
`currentTeam`, `lastActivity` and the player set keep the authoritative
session's values, and in particular the snapshot's `currentTeam` is ignored
by the merge; it is consulted only when creating a brand-new session from a
saved snapshot. -/
theorem merge_changes_only_revealed :
    (∀ (g : Game) (inc : Snapshot),
        (applyJoinMerge g inc).words = g.words
        ∧ (applyJoinMerge g inc).colors = g.colors
        ∧ (applyJoinMerge g inc).currentTeam = g.currentTeam
        ∧ (applyJoinMerge g inc).lastActivity = g.lastActivity
        ∧ (applyJoinMerge g inc).players = g.players
        ∧ (applyJoinMerge g inc).revealed = mergeRevealed g.revealed inc.revealed
        ∧ (mergeGameStates g inc).currentTeam = g.currentTeam)
    ∧ (∀ (words : List String) (colors : List Color) (saved : Snapshot) (now : Nat),
        (createNewGameState words colors (some saved) now).currentTeam
          = saved.currentTeam.getD Team.blue) :=
  ⟨fun _ _ => ⟨rfl, rfl, rfl, rfl, rfl, rfl, rfl⟩, fun _ _ _ _ => rfl⟩

/-- OR-merging reads elementwise through `zipWith` for equal-length snapshots. -/
lemma getD_zipWith_or (A B : List Bool) (h : A.length = B.length) (i : Nat) :
    (List.zipWith or A B).getD i false = (A.getD i false || B.getD i false) := by
  by_cases hi : i < A.length
  · rw [List.getD_eq_getElem?_getD, List.getD_eq_getElem?_getD, List.getD_eq_getElem?_getD,
      List.getElem?_zipWith, List.getElem?_eq_getElem hi,
      List.getElem?_eq_getElem (h ▸ hi)]
    rfl
  · have h1 : (List.zipWith or A B).length ≤ i := by
      rw [List.length_zipWith]
      omega
    have h2 : A.length ≤ i := by omega
    have h3 : B.length ≤ i := by omega
    rw [List.getD_eq_getElem?_getD, List.getD_eq_getElem?_getD, List.getD_eq_getElem?_getD,
      List.getElem?_eq_none h1, List.getElem?_eq_none h2, List.getElem?_eq_none h3]
    rfl

/-- Two sequential OR-merges collapse to one merge of the combined snapshot. -/
lemma mergeRevealed_assoc (base X Y : List Bool) (h : X.length = Y.length) :
    mergeRevealed (mergeRevealed base X) Y = mergeRevealed base (List.zipWith or X Y) := by
  apply List.ext_getElem?
  intro i
  rw [getElem?_mergeRevealed, getElem?_mergeRevealed, getElem?_mergeRevealed]
  cases base[i]? with
  | none => rfl
  | some r =>
    have hz := getD_zipWith_or X Y h i
    rw [List.getD_eq_getElem?_getD, List.getD_eq_getElem?_getD,
      List.getD_eq_getElem?_getD] at hz
    simp [hz, Bool.or_assoc]

/-- Two OR-merges applied in either order give the same revealed vector. -/
lemma mergeRevealed_comm (base X Y : List Bool) :
    mergeRevealed (mergeRevealed base X) Y = mergeRevealed (mergeRevealed base Y) X := by
  apply List.ext_getElem?
  intro i
  rw [getElem?_mergeRevealed, getElem?_mergeRevealed, getElem?_mergeRevealed,
    getElem?_mergeRevealed]
  cases base[i]? with
  | none => rfl
  | some r => simp [Bool.or_assoc, Bool.or_comm, Bool.or_left_comm]

/-- C9: for any session state and two 25-entry reveal snapshots, merging
them sequentially equals merging their elementwise OR, and the two
snapshots can be merged in either order — the OR-merge is associative and
commutative in the incoming snapshots. -/
theorem merge_convergence (S : Game) (A B : Snapshot)
    (hA : A.revealed.length = 25) (hB : B.revealed.length = 25) :
    mergeGameStates (mergeGameStates S A) B
      = mergeGameStates S
          { revealed := List.zipWith or A.revealed B.revealed, currentTeam := none }
    ∧ mergeGameStates (mergeGameStates S A) B
      = mergeGameStates (mergeGameStates S B) A := by
  have hAB : A.revealed.length = B.revealed.length := by rw [hA, hB]
  constructor
  · unfold mergeGameStates
    dsimp only
    rw [mergeRevealed_assoc S.revealed A.revealed B.revealed hAB]
  · unfold mergeGameStates
    dsimp only
    rw [mergeRevealed_comm S.revealed A.revealed B.revealed]

/-- Witness for C9 at two concrete snapshots. -/
theorem merge_convergence_witness :
    snapAllW.revealed.length = 25 ∧ snapNoneW.revealed.length = 25
    ∧ (mergeGameStates (mergeGameStates gSolo snapAllW) snapNoneW
        = mergeGameStates gSolo
            { revealed := List.zipWith or snapAllW.revealed snapNoneW.revealed,
              currentTeam := none }
      ∧ mergeGameStates (mergeGameStates gSolo snapAllW) snapNoneW
        = mergeGameStates (mergeGameStates gSolo snapNoneW) snapAllW) :=
  ⟨by decide, by decide, merge_convergence gSolo snapAllW snapNoneW (by decide) (by decide)⟩

/-- C10 counterexample: when the last occupant disconnects, the code
refreshes `lastActivity` (src/index.js lines 153-155) — so a disconnect
does not leave every other session field unchanged. -/
theorem disconnect_refreshes_lastActivity :
    gSolo.lastActivity = 5
    ∧ ((leaveCurrentGame (some "K") (regOf gSolo) "s1" 99).2 "K").map
        (fun g => g.lastActivity) = some 99 := by
  decide

/-- C10 amended: a disconnect removes the connection identifier from the
session's player set and leaves the board, the revealed vector,
`currentTeam` and the derived fields unchanged; `lastActivity` is unchanged
while other players remain, but is refreshed to the disconnect time when
the removal leaves the session empty. Other sessions are untouched. -/
theorem disconnect_detaches_presence (reg : Registry) (key socketId : String) (g : Game)
    (now : Nat) (g' : Game)
    (hreg : reg key = some g)
    (hres : (leaveCurrentGame (some key) reg socketId now).2 key = some g') :
    g'.players = setDelete g.players socketId
    ∧ g'.words = g.words
    ∧ g'.colors = g.colors
    ∧ g'.revealed = g.revealed
    ∧ g'.currentTeam = g.currentTeam
    ∧ g'.remainingCards = g.remainingCards
    ∧ g'.gameOver = g.gameOver
    ∧ g'.winner = g.winner
    ∧ g'.lastActivity
        = (if (setDelete g.players socketId).length = 0 then now else g.lastActivity)
    ∧ (leaveCurrentGame (some key) reg socketId now).1 = none
    ∧ (∀ k, k ≠ key → (leaveCurrentGame (some key) reg socketId now).2 k = reg k) := by
  unfold leaveCurrentGame at hres
  dsimp only at hres
  rw [hreg] at hres
  dsimp only at hres
  rw [if_pos rfl, Option.some_inj] at hres
  subst hres
  refine ⟨rfl, rfl, rfl, rfl, rfl, rfl, rfl, rfl, rfl, ?_, ?_⟩
  · simp [leaveCurrentGame, hreg]
  · intro k hk
    simp [leaveCurrentGame, hreg, hk]

/-- Witness for C10 (amended): "s2" leaves the two-player session; the
remaining occupancy is nonempty so `lastActivity` stays. -/
theorem disconnect_detaches_presence_witness :
    (regOf gTwo) "K" = some gTwo
    ∧ ((leaveCurrentGame (some "K") (regOf gTwo) "s2" 99).2 "K" = some gTwoAfter)
    ∧ (gTwoAfter.players = setDelete gTwo.players "s2"
        ∧ gTwoAfter.words = gTwo.words
        ∧ gTwoAfter.colors = gTwo.colors
        ∧ gTwoAfter.revealed = gTwo.revealed
        ∧ gTwoAfter.currentTeam = gTwo.currentTeam
        ∧ gTwoAfter.remainingCards = gTwo.remainingCards
        ∧ gTwoAfter.gameOver = gTwo.gameOver
        ∧ gTwoAfter.winner = gTwo.winner
        ∧ gTwoAfter.lastActivity
            = (if (setDelete gTwo.players "s2").length = 0 then 99 else gTwo.lastActivity)
        ∧ (leaveCurrentGame (some "K") (regOf gTwo) "s2" 99).1 = none
        ∧ (∀ k, k ≠ "K" →
            (leaveCurrentGame (some "K") (regOf gTwo) "s2" 99).2 k = (regOf gTwo) k)) :=
  ⟨by decide, by decide,
    disconnect_detaches_presence (regOf gTwo) "K" "s2" gTwo 99 gTwoAfter (by decide) (by decide)⟩

end Codenames
